import Mathlib

/-!
Verification of the core of the `mockable` Rust library: the sequenced
call recorder (`src/mock.rs`, `Mock`) and the transactional executor
(`src/postgres.rs`, `transactional`).

The recorder is shallow-embedded as a state value: `Mock R A` holds the
current value of the shared atomic counter (`idx`) and the immutable
behavior (`kind`).  `call_with_args` is state passing: it returns the
call's outcome together with the updated recorder state.  A fatal abort
of the Rust code (the over-invocation panic) is modelled as `none`.
Concurrent callers sharing one recorder serialize through the single
atomic fetch-and-increment, so any concurrent execution is a sequential
run of the calls in the order the increments complete; `callSeq` runs
such a serialized sequence of calls.

The transactional executor is generic over the `PostgresClient` and
`PostgresTransaction` traits; a trait implementation is modelled by the
outcomes its methods produce (`PostgresTransactionModel`), and
`transactional` additionally returns the list of events (operation run,
commit invoked, rollback invoked) of its control path, mirroring the
source's control flow.
-/

-- Sequenced call recorder (src/mock.rs)

/-- Behavior of a recorder: a single rule applied to every call index, or
an ordered script of per-call functions (`MockKind` in the source). -/
inductive MockKind (R A : Type) where
  | always (f : Nat → A → R)
  | callSpecific (fns : List (A → R))

/-- The recorder (`Mock<RETURN, ARGS>` in the source): the current value of
the shared atomic counter together with the immutable behavior. -/
structure Mock (R A : Type) where
  idx : Nat
  kind : MockKind R A

/-- `Mock::always_with_args`: a recorder applying one rule to every call. -/
def Mock.always_with_args {R A : Type} (f : Nat → A → R) : Mock R A :=
  { idx := 0, kind := MockKind.always f }

/-- `Mock::with`: a recorder scripted by an explicit list of functions
(`with` is a reserved word in Lean, hence the suffix). -/
def Mock.with_fns {R A : Type} (fns : List (A → R)) : Mock R A :=
  { idx := 0, kind := MockKind.callSpecific fns }

/-- `Mock::never`: a recorder that must never be called. -/
def Mock.never {R A : Type} : Mock R A :=
  Mock.with_fns []

/-- `Mock::once_with_args`: a recorder that must be called exactly once. -/
def Mock.once_with_args {R A : Type} (f : A → R) : Mock R A :=
  Mock.with_fns [f]

/-- `Mock::always` (argument-free variant). -/
def Mock.always' {R : Type} (f : Nat → R) : Mock R Unit :=
  Mock.always_with_args (fun idx _ => f idx)

/-- `Mock::once` (argument-free variant). -/
def Mock.once {R : Type} (f : Unit → R) : Mock R Unit :=
  Mock.once_with_args (fun _ => f ())

/-- `Mock::call_with_args`: atomically claim the next index
(`fetch_add(1)` returns the previous value), then dispatch: an always
rule receives the claimed index and the arguments; a script is
bounds-checked against the claimed index and aborts (`none`) when the
index is past its end, the counter having already been incremented. -/
def Mock.call_with_args {R A : Type} (m : Mock R A) (args : A) :
    Option R × Mock R A :=
  let idx := m.idx
  let m' : Mock R A := { m with idx := idx + 1 }
  match m.kind with
  | MockKind.always f => (some (f idx args), m')
  | MockKind.callSpecific fns =>
      if h : idx < fns.length then (some ((fns.get ⟨idx, h⟩) args), m')
      else (none, m')

/-- `Mock::call` (argument-free variant). -/
def Mock.call {R : Type} (m : Mock R Unit) : Option R × Mock R Unit :=
  m.call_with_args ()

/-- `Mock::count`: a plain read of the shared counter. -/
def Mock.count {R A : Type} (m : Mock R A) : Nat :=
  m.idx

/-- The unbounded sentinel `usize::MAX` (the counter is a 64-bit usize). -/
def usize_max : Nat := 2 ^ 64 - 1

/-- `Mock::times`: the script length, or `usize::MAX` for an always rule. -/
def Mock.times {R A : Type} (m : Mock R A) : Nat :=
  match m.kind with
  | MockKind.always _ => usize_max
  | MockKind.callSpecific fns => fns.length

/-- `Clone for Mock`: a clone shares the same counter (`Arc<AtomicUsize>`)
and the same behavior storage; on the shared state it is the identity. -/
def Mock.clone {R A : Type} (m : Mock R A) : Mock R A :=
  m

/-- A serialized sequence of calls against one shared recorder: each call
threads the updated shared state into the next. -/
def Mock.callSeq {R A : Type} (m : Mock R A) : List A → List (Option R) × Mock R A
  | [] => ([], m)
  | a :: as =>
      let r := m.call_with_args a
      let rest := r.2.callSeq as
      (r.1 :: rest.1, rest.2)

/-- The indices claimed (returned by the atomic fetch-and-increment) by a
serialized sequence of calls against one shared recorder. -/
def Mock.claimSeq {R A : Type} (m : Mock R A) : List A → List Nat
  | [] => []
  | a :: as => m.idx :: ((m.call_with_args a).2.claimSeq as)

-- Helper lemmas about the recorder

/-- Pure dispatch of one call at a given claimed index. -/
def MockKind.dispatch {R A : Type} : MockKind R A → Nat → A → Option R
  | MockKind.always f, idx, args => some (f idx args)
  | MockKind.callSpecific fns, idx, args =>
      if h : idx < fns.length then some ((fns.get ⟨idx, h⟩) args) else none

theorem call_with_args_eq {R A : Type} (m : Mock R A) (a : A) :
    m.call_with_args a = (m.kind.dispatch m.idx a, { m with idx := m.idx + 1 }) := by
  cases m with
  | mk idx kind =>
      cases kind with
      | always f => rfl
      | callSpecific fns =>
          simp only [Mock.call_with_args, MockKind.dispatch]
          split <;> rfl

theorem callSeq_snd_idx {R A : Type} (m : Mock R A) (as : List A) :
    ((m.callSeq as).2).idx = m.idx + as.length := by
  induction as generalizing m with
  | nil => simp [Mock.callSeq]
  | cons a as ih =>
      simp only [Mock.callSeq, call_with_args_eq, List.length_cons]
      rw [ih]
      show m.idx + 1 + as.length = m.idx + (as.length + 1)
      omega

theorem callSeq_snd_kind {R A : Type} (m : Mock R A) (as : List A) :
    ((m.callSeq as).2).kind = m.kind := by
  induction as generalizing m with
  | nil => rfl
  | cons a as ih =>
      simp only [Mock.callSeq, call_with_args_eq]
      exact ih _

theorem callSeq_get {R A : Type} (m : Mock R A) (as : List A) (i : Nat)
    (hi : i < as.length) :
    ((m.callSeq as).1)[i]? = some (m.kind.dispatch (m.idx + i) (as.get ⟨i, hi⟩)) := by
  induction as generalizing m i with
  | nil => simp at hi
  | cons a as ih =>
      cases i with
      | zero =>
          simp [Mock.callSeq, call_with_args_eq]
      | succ n =>
          have hn : n < as.length := Nat.lt_of_succ_lt_succ hi
          have := ih { m with idx := m.idx + 1 } n hn
          simp only [Mock.callSeq, call_with_args_eq, List.getElem?_cons_succ]
          rw [this]
          have harith : m.idx + 1 + n = m.idx + (n + 1) := by omega
          rw [harith]
          rfl

theorem claimSeq_eq_range' {R A : Type} (m : Mock R A) (as : List A) :
    m.claimSeq as = List.range' m.idx as.length := by
  induction as generalizing m with
  | nil => rfl
  | cons a as ih =>
      simp only [Mock.claimSeq, call_with_args_eq, List.length_cons, List.range'_succ]
      rw [ih]

-- Transactional executor (src/postgres.rs)

/-- A `PostgresTransaction` trait implementation, modelled by the outcome
each lifecycle method would produce (`PE` is the `PostgresError` type;
`commit` and `rollback` each consume the handle, so each can run at most
once per transaction). -/
structure PostgresTransactionModel (PE : Type) where
  commitResult : Except PE Unit
  rollbackResult : Except PE Unit

/-- The trait-method invocations `transactional` can perform after the
open step: running the caller's operation, committing, rolling back. -/
inductive TxEvent where
  | op
  | commit
  | rollback
  deriving DecidableEq

/-- `transactional(client, f)` (src/postgres.rs:343-363): open a
transaction on the client (`client.transaction().await?`); on open
failure return the outer error at once.  Otherwise run `f` on the
transaction handle: on `Ok(val)` commit (propagating a commit error as
the outer error) and return `Ok(Ok(val))`; on `Err(err)` roll back
(propagating a rollback error as the outer error) and return
`Ok(Err(err))`.  `clientTransaction` is the outcome of the open step and
the second component lists the trait methods invoked on the handle, in
order. -/
def transactional {PE T E : Type}
    (clientTransaction : Except PE (PostgresTransactionModel PE))
    (f : PostgresTransactionModel PE → Except E T) :
    Except PE (Except E T) × List TxEvent :=
  match clientTransaction with
  | Except.error err => (Except.error err, [])
  | Except.ok tx =>
      match f tx with
      | Except.ok val =>
          match tx.commitResult with
          | Except.ok _ => (Except.ok (Except.ok val), [TxEvent.op, TxEvent.commit])
          | Except.error err => (Except.error err, [TxEvent.op, TxEvent.commit])
      | Except.error err =>
          match tx.rollbackResult with
          | Except.ok _ => (Except.ok (Except.error err), [TxEvent.op, TxEvent.rollback])
          | Except.error e => (Except.error e, [TxEvent.op, TxEvent.rollback])

-- Claim theorems: sequenced call recorder

/-- Claim C5: for a recorder scripted from a list of entry functions, the
call claiming index `i` returns the entry at position `i` applied to its
arguments while `i` is within the script, and aborts (`none`) once `i`
reaches the script length; in particular a `never()` recorder (empty
script) aborts on every call. -/
theorem mock_scripted_in_order_then_aborts {R A : Type} (fns : List (A → R))
    (as : List A) (i : Nat) (a : A) (ha : as[i]? = some a) :
    (∀ f, fns[i]? = some f →
        (((Mock.with_fns fns).callSeq as).1)[i]? = some (some (f a)))
    ∧ (fns.length ≤ i →
        (((Mock.with_fns fns).callSeq as).1)[i]? = some none)
    ∧ (((Mock.never : Mock R A).callSeq as).1)[i]? = some none := by
  have hi : i < as.length := by
    by_contra hcon
    rw [List.getElem?_eq_none (Nat.le_of_not_lt hcon)] at ha
    exact Option.noConfusion ha
  have hval : as.get ⟨i, hi⟩ = a := by
    have := List.getElem?_eq_getElem hi
    rw [this] at ha
    exact Option.some.inj ha
  have hgetw := callSeq_get (Mock.with_fns fns) as i hi
  have hgetn := callSeq_get (Mock.never : Mock R A) as i hi
  rw [hval] at hgetw hgetn
  refine ⟨?_, ?_, ?_⟩
  · intro f hf
    have hfi : i < fns.length := by
      by_contra hcon
      rw [List.getElem?_eq_none (Nat.le_of_not_lt hcon)] at hf
      exact Option.noConfusion hf
    have hfval : fns[i] = f := by
      have := List.getElem?_eq_getElem hfi
      rw [this] at hf
      exact Option.some.inj hf
    rw [hgetw]
    simp [Mock.with_fns, MockKind.dispatch, hfi, hfval]
  · intro hge
    rw [hgetw]
    have hnot : ¬ ((Mock.with_fns fns : Mock R A).idx + i < fns.length) := by
      simp [Mock.with_fns]
      omega
    simp [Mock.with_fns, MockKind.dispatch] at hnot ⊢
    omega
  · rw [hgetn]
    simp [Mock.never, Mock.with_fns, MockKind.dispatch]

/-- Witness for C5 at a concrete script of two entries and three calls. -/
theorem mock_scripted_in_order_then_aborts_witness :
    (([(), (), ()] : List Unit)[1]? = some ()) ∧
    ((∀ f, ([fun _ : Unit => (10 : Nat), fun _ : Unit => 20])[1]? = some f →
        (((Mock.with_fns [fun _ : Unit => (10 : Nat), fun _ : Unit => 20]).callSeq
            [(), (), ()]).1)[1]? = some (some (f ())))
    ∧ (([fun _ : Unit => (10 : Nat), fun _ : Unit => 20] : List (Unit → Nat)).length ≤ 1 →
        (((Mock.with_fns [fun _ : Unit => (10 : Nat), fun _ : Unit => 20]).callSeq
            [(), (), ()]).1)[1]? = some none)
    ∧ (((Mock.never : Mock Nat Unit).callSeq [(), (), ()]).1)[1]? = some none) :=
  ⟨by decide, mock_scripted_in_order_then_aborts
      [fun _ : Unit => (10 : Nat), fun _ : Unit => 20] [(), (), ()] 1 () (by decide)⟩

/-- Claim C6: for an always-recorder built from `g`, every call succeeds,
and the call claiming index `i` invokes `g` with the index `i` and the
call's argument value, returning its result. -/
theorem mock_always_index_and_args {R A : Type} (g : Nat → A → R) (as : List A)
    (i : Nat) (a : A) (ha : as[i]? = some a) :
    (((Mock.always_with_args g).callSeq as).1)[i]? = some (some (g i a)) := by
  have hi : i < as.length := by
    by_contra hcon
    rw [List.getElem?_eq_none (Nat.le_of_not_lt hcon)] at ha
    exact Option.noConfusion ha
  have hval : as.get ⟨i, hi⟩ = a := by
    have := List.getElem?_eq_getElem hi
    rw [this] at ha
    exact Option.some.inj ha
  have hget := callSeq_get (Mock.always_with_args g) as i hi
  rw [hval] at hget
  rw [hget]
  simp [Mock.always_with_args, MockKind.dispatch]

/-- Witness for C6 at a concrete always rule and three calls. -/
theorem mock_always_index_and_args_witness :
    (([(), (), ()] : List Unit)[2]? = some ()) ∧
    (((Mock.always_with_args (fun i (_ : Unit) => i * 10)).callSeq
        [(), (), ()]).1)[2]? = some (some (2 * 10)) :=
  ⟨by decide, mock_always_index_and_args (fun i (_ : Unit) => i * 10) [(), (), ()] 2 () (by decide)⟩

/-- Claim C7: when `M` callers each perform one call on handles sharing a
single fresh recorder (a clone is the same shared state), the serialized
execution claims exactly the indices `0, 1, ..., M-1`, in the order the
atomic increments complete, with no duplicate and no skipped index. -/
theorem mock_concurrent_indices_exact {R A : Type} (m : Mock R A) (as : List A)
    (h : m.idx = 0) :
    m.claimSeq as = List.range as.length
    ∧ (m.claimSeq as).Nodup
    ∧ m.clone = m := by
  have hrange := claimSeq_eq_range' m as
  rw [h] at hrange
  rw [← List.range_eq_range'] at hrange
  exact ⟨hrange, hrange ▸ List.nodup_range _, rfl⟩

/-- Witness for C7: three callers on a shared always-recorder claim
exactly the indices 0, 1, 2. -/
theorem mock_concurrent_indices_exact_witness :
    (Mock.always_with_args (fun i (_ : Unit) => i)).idx = 0
    ∧ ((Mock.always_with_args (fun i (_ : Unit) => i)).claimSeq [(), (), ()] =
        List.range ([(), (), ()] : List Unit).length
      ∧ ((Mock.always_with_args (fun i (_ : Unit) => i)).claimSeq [(), (), ()]).Nodup
      ∧ (Mock.always_with_args (fun i (_ : Unit) => i)).clone =
          Mock.always_with_args (fun i (_ : Unit) => i)) :=
  ⟨rfl, mock_concurrent_indices_exact (Mock.always_with_args (fun i (_ : Unit) => i))
      [(), (), ()] rfl⟩

/-- Claim C8: after `k` calls (`k` up to `times()`) `count()` equals `k`,
for scripted and always-recorders alike; `times()` is the script length
for a scripted recorder and the sentinel `usize::MAX` for an
always-recorder. -/
theorem mock_count_and_times {R A : Type} (fns : List (A → R)) (g : Nat → A → R)
    (as : List A) (h : as.length ≤ (Mock.with_fns fns).times) :
    ((Mock.with_fns fns).callSeq as).2.count = as.length
    ∧ ((Mock.always_with_args g).callSeq as).2.count = as.length
    ∧ (Mock.with_fns fns).times = fns.length
    ∧ (Mock.always_with_args g).times = usize_max := by
  refine ⟨?_, ?_, rfl, rfl⟩
  · show ((Mock.with_fns fns).callSeq as).2.idx = as.length
    rw [callSeq_snd_idx]
    simp [Mock.with_fns]
  · show ((Mock.always_with_args g).callSeq as).2.idx = as.length
    rw [callSeq_snd_idx]
    simp [Mock.always_with_args]

/-- Witness for C8 at a one-entry script and one call. -/
theorem mock_count_and_times_witness :
    ([()] : List Unit).length ≤ (Mock.with_fns [fun _ : Unit => (1 : Nat)]).times
    ∧ (((Mock.with_fns [fun _ : Unit => (1 : Nat)]).callSeq [()]).2.count =
        ([()] : List Unit).length
      ∧ ((Mock.always_with_args (fun _ (_ : Unit) => (2 : Nat))).callSeq [()]).2.count =
        ([()] : List Unit).length
      ∧ (Mock.with_fns [fun _ : Unit => (1 : Nat)]).times =
        ([fun _ : Unit => (1 : Nat)]).length
      ∧ (Mock.always_with_args (fun _ (_ : Unit) => (2 : Nat))).times = usize_max) :=
  ⟨Nat.le_refl 1, mock_count_and_times [fun _ : Unit => (1 : Nat)]
      (fun _ (_ : Unit) => (2 : Nat)) [()] (Nat.le_refl 1)⟩

/-- Claim C10: the counter is incremented before the bounds check, so an
over-invocation that aborts has still incremented it: after `n + 1`
calls on a script of length `n`, the last call aborts, yet `count()` is
`n + 1`, exceeding `times()` — `count()` counts claimed calls, not
completed ones. -/
theorem mock_count_counts_claimed_calls {R A : Type} (fns : List (A → R))
    (as : List A) (h : as.length = fns.length + 1) :
    ((Mock.with_fns fns).callSeq as).2.count = fns.length + 1
    ∧ (((Mock.with_fns fns).callSeq as).1)[fns.length]? = some none
    ∧ (Mock.with_fns fns).times < ((Mock.with_fns fns).callSeq as).2.count := by
  have hcount : ((Mock.with_fns fns).callSeq as).2.count = fns.length + 1 := by
    show ((Mock.with_fns fns).callSeq as).2.idx = fns.length + 1
    rw [callSeq_snd_idx, h]
    simp [Mock.with_fns]
  refine ⟨hcount, ?_, ?_⟩
  · have hi : fns.length < as.length := by omega
    rw [callSeq_get (Mock.with_fns fns) as fns.length hi]
    have hnot : ¬ (0 + fns.length < fns.length) := by omega
    simp [Mock.with_fns, MockKind.dispatch, hnot]
  · rw [hcount]
    show fns.length < fns.length + 1
    omega

/-- Witness for C10 at a one-entry script and two calls. -/
theorem mock_count_counts_claimed_calls_witness :
    ([(), ()] : List Unit).length = ([fun _ : Unit => (1 : Nat)]).length + 1
    ∧ (((Mock.with_fns [fun _ : Unit => (1 : Nat)]).callSeq [(), ()]).2.count =
        ([fun _ : Unit => (1 : Nat)]).length + 1
      ∧ (((Mock.with_fns [fun _ : Unit => (1 : Nat)]).callSeq
          [(), ()]).1)[([fun _ : Unit => (1 : Nat)]).length]? = some none
      ∧ (Mock.with_fns [fun _ : Unit => (1 : Nat)]).times <
          ((Mock.with_fns [fun _ : Unit => (1 : Nat)]).callSeq [(), ()]).2.count) :=
  ⟨rfl, mock_count_counts_claimed_calls [fun _ : Unit => (1 : Nat)] [(), ()] rfl⟩

-- Claim theorems: transactional executor

/-- Claim C1: when the operation returns `Ok(v)` and opening and commit
both succeed, `transactional` returns `Ok(Ok(v))`, commit is invoked
exactly once on the transaction handle, and rollback is never invoked. -/
theorem transactional_success_path {PE T E : Type}
    (tx : PostgresTransactionModel PE) (f : PostgresTransactionModel PE → Except E T)
    (v : T) (hf : f tx = Except.ok v) (hc : tx.commitResult = Except.ok ()) :
    (transactional (Except.ok tx) f).1 = Except.ok (Except.ok v)
    ∧ ((transactional (Except.ok tx) f).2).count TxEvent.commit = 1
    ∧ ((transactional (Except.ok tx) f).2).count TxEvent.rollback = 0 := by
  have hrun : transactional (Except.ok tx) f =
      (Except.ok (Except.ok v), [TxEvent.op, TxEvent.commit]) := by
    simp [transactional, hf, hc]
  have hlist : (transactional (Except.ok tx) f).2 = [TxEvent.op, TxEvent.commit] := by
    rw [hrun]
  refine ⟨by rw [hrun], ?_, ?_⟩ <;> rw [hlist] <;> decide

/-- Witness for C1 at a concrete transaction model and operation. -/
theorem transactional_success_path_witness :
    ((fun _ : PostgresTransactionModel Nat => (Except.ok 5 : Except Nat Nat))
        ⟨Except.ok (), Except.ok ()⟩ = Except.ok 5)
    ∧ ((⟨Except.ok (), Except.ok ()⟩ : PostgresTransactionModel Nat).commitResult =
        Except.ok ())
    ∧ ((transactional (Except.ok (⟨Except.ok (), Except.ok ()⟩ : PostgresTransactionModel Nat))
          (fun _ => (Except.ok 5 : Except Nat Nat))).1 = Except.ok (Except.ok 5)
      ∧ ((transactional (Except.ok (⟨Except.ok (), Except.ok ()⟩ : PostgresTransactionModel Nat))
          (fun _ => (Except.ok 5 : Except Nat Nat))).2).count TxEvent.commit = 1
      ∧ ((transactional (Except.ok (⟨Except.ok (), Except.ok ()⟩ : PostgresTransactionModel Nat))
          (fun _ => (Except.ok 5 : Except Nat Nat))).2).count TxEvent.rollback = 0) :=
  ⟨rfl, rfl, transactional_success_path ⟨Except.ok (), Except.ok ()⟩
      (fun _ => (Except.ok 5 : Except Nat Nat)) 5 rfl rfl⟩

/-- Claim C2: when the operation returns `Err(e)` and opening and
rollback both succeed, `transactional` returns `Ok(Err(e))` (outer
success wrapping the operation's own failure value), rollback is invoked
exactly once, and commit is never invoked. -/
theorem transactional_operation_failure_path {PE T E : Type}
    (tx : PostgresTransactionModel PE) (f : PostgresTransactionModel PE → Except E T)
    (e : E) (hf : f tx = Except.error e) (hr : tx.rollbackResult = Except.ok ()) :
    (transactional (Except.ok tx) f).1 = Except.ok (Except.error e)
    ∧ ((transactional (Except.ok tx) f).2).count TxEvent.rollback = 1
    ∧ ((transactional (Except.ok tx) f).2).count TxEvent.commit = 0 := by
  have hrun : transactional (Except.ok tx) f =
      (Except.ok (Except.error e), [TxEvent.op, TxEvent.rollback]) := by
    simp [transactional, hf, hr]
  have hlist : (transactional (Except.ok tx) f).2 = [TxEvent.op, TxEvent.rollback] := by
    rw [hrun]
  refine ⟨by rw [hrun], ?_, ?_⟩ <;> rw [hlist] <;> decide

/-- Witness for C2 at a concrete transaction model and operation. -/
theorem transactional_operation_failure_path_witness :
    ((fun _ : PostgresTransactionModel Nat => (Except.error 3 : Except Nat Nat))
        ⟨Except.ok (), Except.ok ()⟩ = Except.error 3)
    ∧ ((⟨Except.ok (), Except.ok ()⟩ : PostgresTransactionModel Nat).rollbackResult =
        Except.ok ())
    ∧ ((transactional (Except.ok (⟨Except.ok (), Except.ok ()⟩ : PostgresTransactionModel Nat))
          (fun _ => (Except.error 3 : Except Nat Nat))).1 = Except.ok (Except.error 3)
      ∧ ((transactional (Except.ok (⟨Except.ok (), Except.ok ()⟩ : PostgresTransactionModel Nat))
          (fun _ => (Except.error 3 : Except Nat Nat))).2).count TxEvent.rollback = 1
      ∧ ((transactional (Except.ok (⟨Except.ok (), Except.ok ()⟩ : PostgresTransactionModel Nat))
          (fun _ => (Except.error 3 : Except Nat Nat))).2).count TxEvent.commit = 0) :=
  ⟨rfl, rfl, transactional_operation_failure_path ⟨Except.ok (), Except.ok ()⟩
      (fun _ => (Except.error 3 : Except Nat Nat)) 3 rfl rfl⟩

/-- Claim C3: when the resolve step fails, the outer machinery failure is
returned and the operation's own outcome is discarded: if the operation
returned `Ok(v)` and commit fails with `ce`, the result is
`Err(ce)` (not `Ok(Ok(v))`); if the operation returned `Err(e)` and
rollback fails with `re`, the result is `Err(re)`, masking `e`. -/
theorem transactional_resolve_failure_masks_outcome {PE T E : Type}
    (tx tx2 : PostgresTransactionModel PE)
    (f g : PostgresTransactionModel PE → Except E T)
    (v : T) (e : E) (ce re : PE)
    (hf : f tx = Except.ok v) (hc : tx.commitResult = Except.error ce)
    (hg : g tx2 = Except.error e) (hr : tx2.rollbackResult = Except.error re) :
    (transactional (Except.ok tx) f).1 = Except.error ce
    ∧ (transactional (Except.ok tx2) g).1 = Except.error re := by
  constructor
  · simp [transactional, hf, hc]
  · simp [transactional, hg, hr]

/-- Witness for C3 at concrete transaction models and operations. -/
theorem transactional_resolve_failure_masks_outcome_witness :
    ((fun _ : PostgresTransactionModel Nat => (Except.ok 1 : Except Nat Nat))
        ⟨Except.error 7, Except.ok ()⟩ = Except.ok 1)
    ∧ ((⟨Except.error 7, Except.ok ()⟩ : PostgresTransactionModel Nat).commitResult =
        Except.error 7)
    ∧ ((fun _ : PostgresTransactionModel Nat => (Except.error 2 : Except Nat Nat))
        ⟨Except.ok (), Except.error 9⟩ = Except.error 2)
    ∧ ((⟨Except.ok (), Except.error 9⟩ : PostgresTransactionModel Nat).rollbackResult =
        Except.error 9)
    ∧ ((transactional (Except.ok (⟨Except.error 7, Except.ok ()⟩ : PostgresTransactionModel Nat))
          (fun _ => (Except.ok 1 : Except Nat Nat))).1 = Except.error 7
      ∧ (transactional (Except.ok (⟨Except.ok (), Except.error 9⟩ : PostgresTransactionModel Nat))
          (fun _ => (Except.error 2 : Except Nat Nat))).1 = Except.error 9) :=
  ⟨rfl, rfl, rfl, rfl, transactional_resolve_failure_masks_outcome
      ⟨Except.error 7, Except.ok ()⟩ ⟨Except.ok (), Except.error 9⟩
      (fun _ => (Except.ok 1 : Except Nat Nat))
      (fun _ => (Except.error 2 : Except Nat Nat)) 1 2 7 9 rfl rfl rfl rfl⟩

/-- Claim C4: when opening the transaction fails with `err`,
`transactional` returns the outer failure `Err(err)` immediately: the
operation is never run and neither commit nor rollback is invoked (the
event list is empty). -/
theorem transactional_open_failure_path {PE T E : Type} (err : PE)
    (f : PostgresTransactionModel PE → Except E T) :
    transactional (Except.error err) f = (Except.error err, [])
    ∧ ((transactional (Except.error err) f).2).count TxEvent.op = 0
    ∧ ((transactional (Except.error err) f).2).count TxEvent.commit = 0
    ∧ ((transactional (Except.error err) f).2).count TxEvent.rollback = 0 :=
  ⟨rfl, rfl, rfl, rfl⟩
